import Mathlib

/-!
Verification of the Syndi core (src/core/Utilities.ts, src/core/Remote.ts)
against its natural-language specification.

The TypeScript source is shallowly embedded:

* The external Reference Resolver (the `Url` module; the spec treats it
  as an external collaborator with RFC 3986 semantics) is abstracted as a
  `UrlOps` record of functions; concrete witnesses instantiate it with a
  simplified model.
* The Content Fetcher is abstracted by passing the would-be fetch result
  as an explicit argument (`Option FetchResult`).
* DOM documents are embedded as a heap of nodes (a list indexed by node
  id); DOM mutation (`attribute.value = ...`, `shadow.append`) becomes
  explicit heap updates, which keeps node identity observable.
-/

namespace Syndi

/-! ## String primitives

The JavaScript string operations the source uses (`split`, `trim`,
`startsWith`, `toLowerCase`, `length`) are given structural-recursion
models over the character list of the string, so that every definition
evaluates by kernel reduction. -/

/-- JavaScript `s.split(c)` for a one-character separator: the chunks
between occurrences of `c`, empty chunks (and a trailing empty chunk)
included. -/
def splitOnChar (c : Char) : List Char → List (List Char)
  | [] => [[]]
  | x :: xs =>
    if x == c then [] :: splitOnChar c xs
    else
      match splitOnChar c xs with
      | [] => [[x]]
      | h :: t => (x :: h) :: t

/-- JavaScript `s.split(c)` on strings. -/
def jsSplit (s : String) (c : Char) : List String :=
  (splitOnChar c s.data).map List.asString

/-- JavaScript `s.trim()`: strip leading and trailing whitespace. -/
def jsTrim (s : String) : String :=
  (((s.data.dropWhile Char.isWhitespace).reverse.dropWhile
      Char.isWhitespace).reverse).asString

/-- JavaScript `s.startsWith("#")`. -/
def startsWithHash (s : String) : Bool :=
  match s.data with
  | c :: _ => c == '#'
  | [] => false

/-- JavaScript `s.toLowerCase()` (ASCII range, which is all the source
compares). -/
def jsToLower (s : String) : String :=
  (s.data.map Char.toLower).asString

/-- The external `Url` module (Reference Resolver collaborator):
`resolve rel base` resolves a reference against a base, `folderOf url`
computes the directory of a URL. -/
structure UrlOps where
  resolve : String → String → String
  folderOf : String → String

/-- Whether a character sequence contains the scheme separator `://`. -/
def hasSchemeSep : List Char → Bool
  | ':' :: '/' :: '/' :: _ => true
  | _ :: rest => hasSchemeSep rest
  | [] => false

/-- Modelled from the spec: the external Reference Resolver is assumed to
have standard RFC 3986 semantics.  This simplified executable model (a
folder is everything up to and including the last slash) agrees with
those semantics on every concrete location used in the witnesses below. -/
def folderOfModel (url : String) : String :=
  ((url.data.reverse.dropWhile (fun c => c != '/')).reverse).asString

/-- Modelled from the spec: reference resolution of the external
Reference Resolver, simplified (keep absolute references, append
relative ones to the base folder; see `folderOfModel`). -/
def resolveModel (rel base : String) : String :=
  if hasSchemeSep rel.data then rel else base ++ rel

/-- The concrete `UrlOps` instance used by witnesses and counterexamples. -/
def urlModel : UrlOps := ⟨resolveModel, folderOfModel⟩

/-! ## Content Fetcher results

`getHttpContent` (Utilities.ts:463) returns `{ headers, text }` on
success and `null` on failure.  Only the Content-Type header is ever
consulted by the functions verified here. -/

/-- Result of a successful `getHttpContent` call: the Content-Type header
(`none` when the header is missing) and the body text. -/
structure FetchResult where
  contentType : Option String
  text : String
deriving DecidableEq

/-- `(fetchResult.headers.get("Content-Type") || "").split(";")[0]`
(Utilities.ts:148): everything before the first `;` (the whole header
when there is none). -/
def mediaTypeOf (contentType : Option String) : String :=
  ((contentType.getD "").data.takeWhile (fun c => c != ';')).asString

/-! ## String length models

JavaScript `string.length` counts UTF-16 code units; the number of bytes
of the UTF-8 encoded text is different for non-ASCII text.  Both are
defined per scalar value. -/

/-- UTF-16 code units occupied by one Unicode scalar value. -/
def utf16CharLen (c : Char) : Nat :=
  if c.toNat < 0x10000 then 1 else 2

/-- UTF-8 bytes occupied by one Unicode scalar value. -/
def utf8CharLen (c : Char) : Nat :=
  if c.toNat ≤ 0x7F then 1
  else if c.toNat ≤ 0x7FF then 2
  else if c.toNat ≤ 0xFFFF then 3
  else 4

/-- JavaScript `s.length`: the UTF-16 code-unit count of `s`. -/
def jsStringLength (s : String) : Nat :=
  (s.data.map utf16CharLen).sum

/-- The UTF-8 byte length of `s` (the "byte count" the spec speaks of). -/
def utf8Length (s : String) : Nat :=
  (s.data.map utf8CharLen).sum

/-! ## Feed Listing Reader

`getFeedFromUrl` (Utilities.ts:140-170).  The fetch itself is external;
its result is passed explicitly. -/

/-- `getFeedFromUrl(feedUrl, startingByte)` (Utilities.ts:140-170), with
the Content Fetcher's answer supplied as `fetchResult`.  Returns the
`{ urls, bytesRead }` record as a pair. -/
def getFeedFromUrl (U : UrlOps) (feedUrl : String)
    (fetchResult : Option FetchResult) : List String × Int :=
  match fetchResult with
  | none => ([], -1)
  | some r =>
    let type := mediaTypeOf r.contentType
    if type ≠ "text/plain" then
      ([], -1)
    else
      let urls := ((((jsSplit r.text '\n').map jsTrim).filter
            (fun s => s ≠ "")).filter
            (fun s => ¬ startsWithHash s)).map
            (fun s => U.resolve s (U.folderOf feedUrl))
      (urls, (jsStringLength r.text : Int))

/-- Stated from the spec's words (§4.1/§8): "the lines of the body text
that, after trimming, are non-empty and do not start with a `#`, each
resolved against the feed resource's own directory, in original order". -/
def specFeedItems (U : UrlOps) (feedUrl : String) (text : String) : List String :=
  (jsSplit text '\n').filterMap fun line =>
    let t := jsTrim line
    if t = "" ∨ startsWithHash t then none
    else some (U.resolve t (U.folderOf feedUrl))

/-! ## DOM embedding

Documents are a heap of nodes: `Heap` is a list of `NodeData`, a node id
is an index into it.  Children are stored as ids, so that node identity
(aliasing, in-place mutation) is observable — `getSandboxedElement`
mutates attribute nodes in place and appends the very elements it was
given. -/

/-- A DOM attribute node: name and current value. -/
structure DomAttr where
  name : String
  value : String
deriving DecidableEq

/-- One DOM element: tag name, attributes, child node ids. -/
structure NodeData where
  nodeName : String
  attrs : List DomAttr
  children : List Nat
deriving DecidableEq

/-- A DOM heap: node ids are indices into the list. -/
abbrev Heap := List NodeData

/-- The node used for out-of-range ids (never matched by any selector). -/
def emptyNode : NodeData := ⟨"", [], []⟩

/-- Dereference a node id. -/
def nodeAt (h : Heap) (i : Nat) : NodeData :=
  h.getD i emptyNode

/-- `element.getAttribute(name)`: the value of the first attribute with
that name, `null` (here `none`) when absent.  DOM attribute names are
unique per element, so "first" is exact. -/
def getAttributeD (d : NodeData) (name : String) : Option String :=
  (d.attrs.find? (fun a => a.name == name)).map DomAttr.value

/-- Document-order (pre-order) traversal of the nodes reachable from
`ids`, fuel-bounded; with fuel ≥ heap size it covers every level of a
well-formed (tree-shaped) heap.  This is the order `querySelectorAll`
yields elements in. -/
def preorderList (h : Heap) : Nat → List Nat → List Nat
  | 0, _ => []
  | fuel + 1, ids => ids.flatMap fun i => i :: preorderList h fuel (nodeAt h i).children

/-! ## Reel Reader: feed declarations

`getFeedsFromDocument` (Utilities.ts:76-95) and `IFeedInfo`
(Utilities.ts:100-105). -/

/-- `IFeedInfo` (Utilities.ts:100-105). -/
structure IFeedInfo where
  subscribable : Bool
  visible : Bool
  href : String
deriving DecidableEq

/-- Selector `LINK[rel=feed]` (Utilities.ts:79). -/
def isFeedLinkSel (d : NodeData) : Bool :=
  d.nodeName == "LINK" && getAttributeD d "rel" == some "feed"

/-- The body of the `for` loop of `getFeedsFromDocument`
(Utilities.ts:81-92): skip when `href` is falsy (absent or empty), else
build the `IFeedInfo` record. -/
def readFeedInfo (e : NodeData) : Option IFeedInfo :=
  match getAttributeD e "href" with
  | none => none
  | some href =>
    if href == "" then none
    else
      let visibleAttr := (getAttributeD e "disabled").map jsToLower
      let visible : Bool :=
        match visibleAttr with
        | some v => v != "false"
        | none => false
      let subscribableAttr := (getAttributeD e "type").map jsToLower
      let subscribable : Bool := subscribableAttr == some "text/feed"
      some ⟨subscribable, visible, href⟩

/-- `getFeedsFromDocument(doc)` (Utilities.ts:76-95): every element of
the document (given by its heap and root ids) matching `LINK[rel=feed]`,
in document order, turned into an `IFeedInfo` (falsy hrefs skipped). -/
def getFeedsFromDocument (h : Heap) (rootIds : List Nat) : List IFeedInfo :=
  ((preorderList h h.length rootIds).filter
      (fun i => isFeedLinkSel (nodeAt h i))).filterMap
    (fun i => readFeedInfo (nodeAt h i))

/-! ## Content Isolator

`getSandboxedElement` (Utilities.ts:10-46).  The container `<div>` and
its shadow root are represented by the list of ids appended to the
shadow root; heap mutation makes the in-place attribute rewriting and
the node moves observable. -/

/-- Modelled from the spec: the "base stylesheet" prepended to the scope
(`Syndi.getStandardCss()`, defined outside src/): a fresh `<style>`
element with no attributes. -/
def standardCssNode : NodeData := ⟨"STYLE", [], []⟩

/-- The attribute names rewritten by the isolator (Utilities.ts:32). -/
def attrNames : List String := ["href", "src", "action", "data-src"]

/-- The selector
`LINK[href], A[href], IMG[src], FORM[action], SCRIPT[src]`
(Utilities.ts:33). -/
def sandboxSelMatches (d : NodeData) : Bool :=
  (d.nodeName == "LINK" && (getAttributeD d "href").isSome) ||
  (d.nodeName == "A" && (getAttributeD d "href").isSome) ||
  (d.nodeName == "IMG" && (getAttributeD d "src").isSome) ||
  (d.nodeName == "FORM" && (getAttributeD d "action").isSome) ||
  (d.nodeName == "SCRIPT" && (getAttributeD d "src").isSome)

/-- The inner loop of Utilities.ts:35-43 on one matched element: every
attribute node named `href`, `src`, `action` or `data-src` has its value
resolved against `folderUrl` in place (attribute names are unique per
DOM element, so rewriting each matching attribute once is exact). -/
def rewriteAttrsNode (U : UrlOps) (folderUrl : String) (d : NodeData) : NodeData :=
  { d with attrs := d.attrs.map fun a =>
      if attrNames.contains a.name then { a with value := U.resolve a.value folderUrl }
      else a }

/-- The heap after allocating the standard-CSS node (Utilities.ts:15);
its id is the input heap's length. -/
def sandboxHeap1 (h : Heap) : Heap := h ++ [standardCssNode]

/-- Utilities.ts:19-30: partition the input elements by node name —
`SECTION` to the body list, `LINK`/`STYLE` after the standard CSS in the
head list, anything else dropped — and append head then body to the
shadow root.  The appended ids are the input ids themselves: `append`
moves nodes, it does not copy them. -/
def sandboxShadowChildren (h1 : Heap) (cssId : Nat) (contents : List Nat) : List Nat :=
  (cssId :: contents.filter fun i =>
      (nodeAt h1 i).nodeName == "LINK" || (nodeAt h1 i).nodeName == "STYLE") ++
    contents.filter (fun i => (nodeAt h1 i).nodeName == "SECTION")

/-- `getElements(sel, shadow)` (Utilities.ts:35): the descendants of the
shadow root, in document order, that match the rewrite selector. -/
def sandboxMatched (h1 : Heap) (shadowChildren : List Nat) : List Nat :=
  (preorderList h1 h1.length shadowChildren).filter
    (fun i => sandboxSelMatches (nodeAt h1 i))

/-- The mutation performed by the rewrite loop (Utilities.ts:35-43):
each matched element, in order, has its reference attributes rewritten
in place. -/
def sandboxRewriteFold (U : UrlOps) (folderUrl : String)
    (ids : List Nat) (h : Heap) : Heap :=
  ids.foldl (fun hh i => hh.set i (rewriteAttrsNode U folderUrl (nodeAt hh i))) h

/-- The isolation scope: the heap after the construction (mutations
included) and the ids appended to the scope's shadow root. -/
structure SandboxScope where
  heap : Heap
  shadowChildren : List Nat
deriving DecidableEq

/-- `getSandboxedElement(contents, baseUrl)` (Utilities.ts:10-46). -/
def getSandboxedElement (U : UrlOps) (h : Heap) (contents : List Nat)
    (baseUrl : String) : SandboxScope :=
  let h1 := sandboxHeap1 h
  let shadowChildren := sandboxShadowChildren h1 h.length contents
  let folderUrl := U.folderOf baseUrl
  let matched := sandboxMatched h1 shadowChildren
  ⟨sandboxRewriteFold U folderUrl matched h1, shadowChildren⟩

/-! ## Metadata Discoverer

`getFeedMetaData` (Utilities.ts:178-233).  The Content Fetcher plus the
`ForeignDocumentReader` pass (both external) are abstracted as
`fetchFn : String → Option (List NodeData)` giving, for a URL, the
elements the reader would visit, in visit order (`none` = fetch failed);
`new URL("..", u).toString()` is abstracted as `parentOf`. -/

/-- The four accumulator variables of Utilities.ts:189-192. -/
structure MetaAcc where
  standardDescription : String
  feedDescription : String
  standardIcon : String
  feedIcon : String
deriving DecidableEq

/-- The visitor passed to `reader.trapElement` (Utilities.ts:194-216),
applied to one visited element. -/
def trapStep (acc : MetaAcc) (e : NodeData) : MetaAcc :=
  if e.nodeName == "meta" then
    let name := getAttributeD e "name"
    if name == some "feed-description" then
      { acc with feedDescription := (getAttributeD e "content").getD "" }
    else if name == some "description" then
      { acc with standardDescription := (getAttributeD e "content").getD "" }
    else acc
  else if e.nodeName == "link" then
    let rel := getAttributeD e "rel"
    if rel == some "feed-icon" then
      { acc with feedIcon := (getAttributeD e "href").getD "" }
    else if rel == some "icon" then
      { acc with standardIcon := (getAttributeD e "href").getD "" }
    else acc
  else acc

/-- JavaScript `a || b` on strings: `b` when `a` is empty. -/
def jsOrString (a b : String) : String := if a == "" then b else a

/-- One directory level (Utilities.ts:187-219): run the visitor over the
page's elements, then merge with feed-specific values taking precedence
(`feedDescription || standardDescription`, `feedIcon || standardIcon`). -/
def levelScan (page : List NodeData) : String × String :=
  let acc := page.foldl trapStep ⟨"", "", "", ""⟩
  (jsOrString acc.feedDescription acc.standardDescription,
   jsOrString acc.feedIcon acc.standardIcon)

/-- The record returned by `getFeedMetaData` (Utilities.ts:222). -/
structure FeedMetaData where
  description : String
  icon : String
deriving DecidableEq

/-- What one loop iteration concludes at `url` (Utilities.ts:184-223):
`some` metadata when the fetch succeeded and `description || icon` is
truthy, `none` otherwise. -/
def levelResult (fetchFn : String → Option (List NodeData)) (url : String) :
    Option FeedMetaData :=
  match fetchFn url with
  | some page =>
    let s := levelScan page
    if s.1 != "" || s.2 != "" then some ⟨s.1, s.2⟩ else none
  | none => none

/-- The `for (let safety = 1000; safety-- > 0;)` loop of
Utilities.ts:182-230, instrumented: alongside the result it returns the
list of URLs the loop fetched, in order (the loop's trace), so that the
hop bound is stateable. -/
def getFeedMetaDataLoop (fetchFn : String → Option (List NodeData))
    (parentOf : String → String) :
    String → Nat → Option FeedMetaData × List String
  | _, 0 => (none, [])
  | currentUrl, fuel + 1 =>
    match levelResult fetchFn currentUrl with
    | some md => (some md, [currentUrl])
    | none =>
      let url := parentOf currentUrl
      if currentUrl == url then (none, [currentUrl])
      else
        let r := getFeedMetaDataLoop fetchFn parentOf url fuel
        (r.1, currentUrl :: r.2)

/-- `getFeedMetaData(feedUrl)` (Utilities.ts:178-233): start at the
feed's directory, scan upward, at most 1000 hops.  First component: the
returned metadata (`none` = the function's `return null`); second
component: the URLs fetched. -/
def getFeedMetaData (U : UrlOps) (fetchFn : String → Option (List NodeData))
    (parentOf : String → String) (feedUrl : String) :
    Option FeedMetaData × List String :=
  getFeedMetaDataLoop fetchFn parentOf (U.folderOf feedUrl) 1000

/-! ## Demand-Driven Provider options

`getOmniviewFromFeed` (Utilities.ts:353-395).  Only the option-merging
behavior is in scope for the claims; the option values themselves
(functions, numbers) are opaque, drawn from an arbitrary type `F`.  A
field holding `none` models a property that is absent from the object. -/

/-- A `Partial<IOmniviewOptions>` object (Utilities.ts:398-424): each
declared property either absent (`none`) or present with a value. -/
structure OmniviewOptionsObj (F : Type) where
  anchorIndex : Option F
  getPoster : Option F
  fillBody : Option F
  getBodyContainer : Option F
deriving DecidableEq

/-- `Object.assign(target, source)` restricted to the
`IOmniviewOptions` properties: every own property of `source` is copied
onto `target`; the mutated `target` is the result. -/
def objectAssign {F : Type} (target source : OmniviewOptionsObj F) :
    OmniviewOptionsObj F :=
  { anchorIndex := source.anchorIndex.or target.anchorIndex
    getPoster := source.getPoster.or target.getPoster
    fillBody := source.fillBody.or target.fillBody
    getBodyContainer := source.getBodyContainer.or target.getBodyContainer }

/-- The effect of `getOmniviewFromFeed` on options (Utilities.ts:362-388):
what `new Omniview.Class(...)` is constructed with, and the state of the
caller's `omniviewOptions` object after the call (`Object.assign`
mutates its first argument, which is the caller's object). -/
structure OmniviewCallEffect (F : Type) where
  constructedWith : OmniviewOptionsObj F
  callerObjectAfter : OmniviewOptionsObj F
deriving DecidableEq

/-- `getOmniviewFromFeed(urls, omniviewOptions)` (Utilities.ts:353-395),
options part.  `defaultGetPoster` and `defaultFillBody` stand for the
two closures built over `urls` in `defaultOptions` (Utilities.ts:362-385);
`defaultOptions` owns exactly those two properties.
`const mergedOptions = Object.assign(omniviewOptions, defaultOptions)`
mutates the caller's object and the same object is passed to the
constructor. -/
def getOmniviewFromFeedOptions {F : Type} (defaultGetPoster defaultFillBody : F)
    (omniviewOptions : OmniviewOptionsObj F) : OmniviewCallEffect F :=
  let defaultOptions : OmniviewOptionsObj F :=
    ⟨none, some defaultGetPoster, some defaultFillBody, none⟩
  let mergedOptions := objectAssign omniviewOptions defaultOptions
  ⟨mergedOptions, mergedOptions⟩

/-! ## Helper lemmas -/

/-- The source's map/filter/filter/map pipeline over the split lines
equals the spec's single filterMap description. -/
theorem feedLines_eq (f : String → String) (l : List String) :
    (((l.map jsTrim).filter (fun s => s ≠ "")).filter
        (fun s => ¬ startsWithHash s)).map f
      = l.filterMap (fun line =>
          if jsTrim line = "" ∨ startsWithHash (jsTrim line) then none
          else some (f (jsTrim line))) := by
  induction l with
  | nil => rfl
  | cons a l ih =>
    by_cases h1 : jsTrim a = ""
    · simpa [h1] using ih
    · by_cases h2 : startsWithHash (jsTrim a)
      · simpa [h1, h2] using ih
      · simpa [h1, h2] using ih

/-! ## Claims about the Feed Listing Reader -/

/-- C6: for every feed resource text, reading the feed (fetch succeeded,
media type `text/plain`) returns as items exactly the lines of the body
text that, after trimming, are non-empty and do not start with `#`, each
resolved against the feed resource's own directory, in original line
order. -/
theorem C6_feed_items (U : UrlOps) (feedUrl : String) (text : String) :
    (getFeedFromUrl U feedUrl (some ⟨some "text/plain", text⟩)).1
      = specFeedItems U feedUrl text := by
  show ((((jsSplit text '\n').map jsTrim).filter (fun s => s ≠ "")).filter
      (fun s => ¬ startsWithHash s)).map (fun s => U.resolve s (U.folderOf feedUrl))
    = specFeedItems U feedUrl text
  exact feedLines_eq (fun s => U.resolve s (U.folderOf feedUrl)) (jsSplit text '\n')

/-- C7: the Feed Listing Reader returns an empty item list and
`bytesRead = -1` both when the fetch fails (`none`) and when the
response's media type is not `text/plain`; both failures produce the
same empty result, and the embedded reader is a total function (it never
raises). -/
theorem C7_feed_failure (U : UrlOps) (feedUrl : String) (r : FetchResult) :
    getFeedFromUrl U feedUrl none = ([], -1)
      ∧ (mediaTypeOf r.contentType ≠ "text/plain" →
          getFeedFromUrl U feedUrl (some r) = ([], -1)) := by
  refine ⟨rfl, fun hmt => ?_⟩
  simp [getFeedFromUrl, hmt]

/-- C7 witness: a `text/html` response yields the same `([], -1)` as a
failed fetch. -/
theorem C7_feed_failure_witness :
    getFeedFromUrl urlModel "https://x/feed.txt"
      (some ⟨some "text/html", "a.html\n"⟩) = ([], -1) :=
  (C7_feed_failure urlModel "https://x/feed.txt"
    ⟨some "text/html", "a.html\n"⟩).2 (by decide)

/-- C4: the claim says `bytesConsumed` is the byte length of the text
received for every body text including non-ASCII UTF-8 text.  The code
(Utilities.ts:165) returns `fetchResult.text.length`, a UTF-16
code-unit count: on the two-byte character `é` plus a newline the code
yields 2 while the UTF-8 byte count is 3.  On the all-ASCII scenario
text the two coincide (24), which is what the spec's scenario records. -/
theorem C4_bytesRead_eval :
    (getFeedFromUrl urlModel "https://x/feed.txt"
        (some ⟨some "text/plain", "é\n"⟩)).2 = 2
      ∧ utf8Length "é\n" = 3
      ∧ (getFeedFromUrl urlModel "https://x/feed.txt"
          (some ⟨some "text/plain", "#comment\n\na.html\nb.html\n"⟩)).2 = 24
      ∧ utf8Length "#comment\n\na.html\nb.html\n" = 24 := by
  refine ⟨rfl, rfl, rfl, rfl⟩

/-! ## Claims about feed declarations (Reel Reader) -/

/-- A document consisting of a single feed `<link>` element carrying the
given attributes. -/
def feedLinkDoc (attrs : List DomAttr) : Heap := [⟨"LINK", attrs, []⟩]

/-- The `visible` rule exactly as claim C1 states it: `disabled` absent
or (case-insensitively) `"false"` gives `true`, any other attribute
value gives `false`. -/
def specVisibleC1 (disabledAttr : Option String) : Bool :=
  match disabledAttr with
  | none => true
  | some v => jsToLower v == "false"

/-- C1 counterexample: on a feed link with no `disabled` attribute the
claim requires `visible = true` (`specVisibleC1 none = true`), but
`getFeedsFromDocument` (Utilities.ts:87-88 computes
`typeof visibleAttr === "string" && visibleAttr !== "false"`, with no
inversion) produces `visible = false`. -/
theorem C1_counterexample :
    (getFeedsFromDocument (feedLinkDoc [⟨"rel", "feed"⟩, ⟨"href", "f.txt"⟩])
        [0]).map IFeedInfo.visible = [false]
      ∧ specVisibleC1 none = true := by decide

/-- A single-feed-link document whose `disabled` attribute is `dv`
(absent when `none`). -/
def c1Doc (dv : Option String) : Heap :=
  [⟨"LINK", ⟨"rel", "feed"⟩ :: ⟨"href", "f.txt"⟩ ::
      (match dv with | some v => [⟨"disabled", v⟩] | none => []), []⟩]

/-- C1 amended: `visible` is true exactly when the `disabled` attribute
is present with a (lowercased) value other than `"false"`; in
particular `disabled` absent gives `visible = false`,
`disabled="true"` gives `visible = true`, `disabled=""` gives
`visible = true`, and `disabled="false"` gives `visible = false`. -/
theorem C1_amended (dv : Option String) :
    getFeedsFromDocument (c1Doc dv) [0]
      = [⟨false,
          (match dv with | some v => jsToLower v != "false" | none => false),
          "f.txt"⟩] := by
  cases dv <;> rfl

/-- C3 counterexample: for the Reel at `https://x/r/index.html`
declaring a feed link with href `f.txt`, the claim requires the stored
href to be the absolute `https://x/r/f.txt`; the code
(Utilities.ts:83-91) stores the raw attribute value `f.txt`, which is
not that Location (the third conjunct computes what resolution against
the document's directory would have produced). -/
theorem C3_counterexample :
    (getFeedsFromDocument (feedLinkDoc [⟨"rel", "feed"⟩, ⟨"href", "f.txt"⟩])
        [0]).map IFeedInfo.href = ["f.txt"]
      ∧ urlModel.resolve "f.txt" (urlModel.folderOf "https://x/r/index.html")
          = "https://x/r/f.txt"
      ∧ ("f.txt" : String) ≠ "https://x/r/f.txt" := by decide

/-- C3 amended: the `IFeedInfo` produced by the Reel Reader stores the
raw `href` attribute value exactly as written in the document, for every
non-empty href — no resolution against the document's directory happens
at this boundary (`getFeedsFromDocument` never consults the resolver). -/
theorem C3_amended (href : String) (h : href ≠ "") :
    getFeedsFromDocument (feedLinkDoc [⟨"rel", "feed"⟩, ⟨"href", href⟩]) [0]
      = [⟨false, false, href⟩] := by
  simp [getFeedsFromDocument, feedLinkDoc, preorderList, nodeAt, emptyNode,
    isFeedLinkSel, getAttributeD, readFeedInfo, List.filterMap_cons,
    List.find?, h]

/-- C3 amended, witness at the spec's scenario href `f.txt`. -/
theorem C3_amended_witness :
    getFeedsFromDocument (feedLinkDoc [⟨"rel", "feed"⟩, ⟨"href", "f.txt"⟩]) [0]
      = [⟨false, false, "f.txt"⟩] :=
  C3_amended "f.txt" (by decide)

/-! ## Heap lemmas for the Content Isolator -/

/-- Updating a node and reading it back at the same (in-range) id. -/
theorem nodeAt_set_self (l : Heap) (i : Nat) (x : NodeData) (hi : i < l.length) :
    nodeAt (l.set i x) i = x := by
  induction l generalizing i with
  | nil => simp at hi
  | cons a l ih =>
    cases i with
    | zero => rfl
    | succ n => exact ih n (Nat.lt_of_succ_lt_succ hi)

/-- Updating one node leaves every other id unchanged. -/
theorem nodeAt_set_ne (l : Heap) (i j : Nat) (x : NodeData) (hne : j ≠ i) :
    nodeAt (l.set i x) j = nodeAt l j := by
  induction l generalizing i j with
  | nil => rfl
  | cons a l ih =>
    cases i with
    | zero =>
      cases j with
      | zero => exact absurd rfl hne
      | succ m => rfl
    | succ n =>
      cases j with
      | zero => rfl
      | succ m => exact ih n m (fun e => hne (by rw [e]))

/-- The out-of-range node matches no rewrite selector, so every matched
id is in range. -/
theorem mem_sandboxMatched_lt (h1 : Heap) (sc : List Nat) (i : Nat)
    (hm : i ∈ sandboxMatched h1 sc) : i < h1.length := by
  by_contra hge
  have hdef : nodeAt h1 i = emptyNode :=
    List.getD_eq_default _ _ (Nat.le_of_not_lt hge)
  have hmatch := (List.mem_filter.mp hm).2
  rw [hdef] at hmatch
  simp [sandboxSelMatches, getAttributeD, emptyNode] at hmatch

/-- Pointwise characterization of the rewrite loop: with pairwise
distinct, in-range ids, a rewritten id holds the rewritten node and any
other id is untouched. -/
theorem sandboxRewriteFold_nodeAt (U : UrlOps) (f : String) :
    ∀ (ids : List Nat) (hh : Heap), ids.Nodup → (∀ k ∈ ids, k < hh.length) →
      ∀ j : Nat,
        (j ∈ ids → nodeAt (sandboxRewriteFold U f ids hh) j
            = rewriteAttrsNode U f (nodeAt hh j))
        ∧ (j ∉ ids → nodeAt (sandboxRewriteFold U f ids hh) j = nodeAt hh j) := by
  intro ids
  induction ids with
  | nil =>
    intro hh _ _ j
    exact ⟨fun hj => absurd hj (List.not_mem_nil j), fun _ => rfl⟩
  | cons i ids ih =>
    intro hh hnd hlt j
    have hndc := List.nodup_cons.mp hnd
    have hilt : i < hh.length := hlt i (List.mem_cons_self i ids)
    have hfold : sandboxRewriteFold U f (i :: ids) hh
        = sandboxRewriteFold U f ids
            (hh.set i (rewriteAttrsNode U f (nodeAt hh i))) := rfl
    have hlt' : ∀ k ∈ ids, k < (hh.set i (rewriteAttrsNode U f (nodeAt hh i))).length := by
      intro k hk
      rw [List.length_set]
      exact hlt k (List.mem_cons_of_mem _ hk)
    have ihs := ih (hh.set i (rewriteAttrsNode U f (nodeAt hh i))) hndc.2 hlt' j
    constructor
    · intro hj
      rcases List.mem_cons.mp hj with rfl | hj'
      · rw [hfold, ihs.2 hndc.1, nodeAt_set_self _ _ _ hilt]
      · have hjne : j ≠ i := fun e => hndc.1 (e ▸ hj')
        rw [hfold, ihs.1 hj', nodeAt_set_ne _ _ _ _ hjne]
    · intro hj
      have hjne : j ≠ i := fun e => hj (e ▸ List.mem_cons_self i ids)
      have hjnot : j ∉ ids := fun hk => hj (List.mem_cons_of_mem _ hk)
      rw [hfold, ihs.2 hjnot, nodeAt_set_ne _ _ _ _ hjne]

/-! ## Claims about the Content Isolator -/

/-- A source document owning a single `<link href="style.css">`. -/
def c2Heap : Heap := [⟨"LINK", [⟨"href", "style.css"⟩], []⟩]

/-- C2 counterexample: the claim says the scope shares no mutable node
with its input.  For the input link node (id 0), the constructed scope's
shadow root contains id 0 itself — the node was moved, not copied
(Utilities.ts:24/27/30 append the given elements) — and the node's state
after construction differs from its original state: the rewrite loop
(Utilities.ts:41-42) mutated the shared node's `href` in place. -/
theorem C2_counterexample :
    0 ∈ (getSandboxedElement urlModel c2Heap [0] "https://x/r/index.html").shadowChildren
      ∧ nodeAt (getSandboxedElement urlModel c2Heap [0] "https://x/r/index.html").heap 0
          ≠ nodeAt c2Heap 0 := by decide

/-- C2 amended: the scope aliases its input rather than copying it —
every input node whose kind is `SECTION`, `LINK` or `STYLE` appears by
identity (same node id) among the scope's shadow children, so mutations
of those nodes through the scope and through the source are mutations of
the same node. -/
theorem C2_amended (U : UrlOps) (h : Heap) (contents : List Nat)
    (baseUrl : String) (i : Nat) (hmem : i ∈ contents)
    (hkind : (nodeAt (sandboxHeap1 h) i).nodeName = "SECTION"
      ∨ (nodeAt (sandboxHeap1 h) i).nodeName = "LINK"
      ∨ (nodeAt (sandboxHeap1 h) i).nodeName = "STYLE") :
    i ∈ (getSandboxedElement U h contents baseUrl).shadowChildren := by
  show i ∈ sandboxShadowChildren (sandboxHeap1 h) h.length contents
  unfold sandboxShadowChildren
  rcases hkind with hk | hk | hk
  · exact List.mem_append_right _ (List.mem_filter.mpr ⟨hmem, by simp [hk]⟩)
  · exact List.mem_append_left _
      (List.mem_cons_of_mem _ (List.mem_filter.mpr ⟨hmem, by simp [hk]⟩))
  · exact List.mem_append_left _
      (List.mem_cons_of_mem _ (List.mem_filter.mpr ⟨hmem, by simp [hk]⟩))

/-- A source document owning a single `<section>`. -/
def c2wHeap : Heap := [⟨"SECTION", [], []⟩]

/-- C2 amended, witness: the input section node (id 0) is itself a
shadow child of the scope. -/
theorem C2_amended_witness :
    0 ∈ (getSandboxedElement urlModel c2wHeap [0] "https://x/r/index.html").shadowChildren :=
  C2_amended urlModel c2wHeap [0] "https://x/r/index.html" 0 (by decide) (by decide)

/-- A section containing an image that only carries `data-src`. -/
def c5Heap : Heap :=
  [⟨"SECTION", [], [1]⟩, ⟨"IMG", [⟨"data-src", "p.png"⟩], []⟩]

/-- C5 counterexample: the claim says every `data-src` found anywhere
inside the scope, on every element kind carrying one, is rewritten.  An
`<img data-src="p.png">` (no `src`) inside the section matches no entry
of the selector `LINK[href], A[href], IMG[src], FORM[action],
SCRIPT[src]` (Utilities.ts:33), so its `data-src` keeps the raw value
instead of the resolved one. -/
theorem C5_counterexample :
    getAttributeD
        (nodeAt (getSandboxedElement urlModel c5Heap [0] "https://x/r/index.html").heap 1)
        "data-src" = some "p.png"
      ∧ "p.png"
          ≠ urlModel.resolve "p.png" (urlModel.folderOf "https://x/r/index.html") := by
  decide

/-- C5 amended: the isolator rewrites the reference-bearing attributes
(`href`, `src`, `action`, `data-src`) exactly on the elements of the
scope matched by the selector `LINK[href], A[href], IMG[src],
FORM[action], SCRIPT[src]` — each matched element's attributes are
resolved against the directory of `baseLocation`, and every unmatched
element is left untouched. -/
theorem C5_amended (U : UrlOps) (h : Heap) (contents : List Nat)
    (baseUrl : String) (j : Nat)
    (hnd : (sandboxMatched (sandboxHeap1 h)
        (sandboxShadowChildren (sandboxHeap1 h) h.length contents)).Nodup) :
    (j ∈ sandboxMatched (sandboxHeap1 h)
        (sandboxShadowChildren (sandboxHeap1 h) h.length contents) →
      nodeAt (getSandboxedElement U h contents baseUrl).heap j
        = rewriteAttrsNode U (U.folderOf baseUrl) (nodeAt (sandboxHeap1 h) j))
    ∧ (j ∉ sandboxMatched (sandboxHeap1 h)
        (sandboxShadowChildren (sandboxHeap1 h) h.length contents) →
      nodeAt (getSandboxedElement U h contents baseUrl).heap j
        = nodeAt (sandboxHeap1 h) j) :=
  sandboxRewriteFold_nodeAt U (U.folderOf baseUrl)
    (sandboxMatched (sandboxHeap1 h)
      (sandboxShadowChildren (sandboxHeap1 h) h.length contents))
    (sandboxHeap1 h) hnd
    (fun k hk => mem_sandboxMatched_lt _ _ k hk) j

/-- A section containing an image with a relative `src`. -/
def c5wHeap : Heap :=
  [⟨"SECTION", [], [1]⟩, ⟨"IMG", [⟨"src", "p.png"⟩], []⟩]

/-- C5 amended, witness (spec scenario 3): the `<img src="p.png">`
inside the isolated section is matched and gets its attributes
rewritten against the directory of the base location. -/
theorem C5_amended_witness :
    nodeAt (getSandboxedElement urlModel c5wHeap [0] "https://x/r/index.html").heap 1
      = rewriteAttrsNode urlModel (urlModel.folderOf "https://x/r/index.html")
          (nodeAt (sandboxHeap1 c5wHeap) 1) :=
  (C5_amended urlModel c5wHeap [0] "https://x/r/index.html" 1 (by decide)).1
    (by decide)

/-! ## Claims about the Metadata Discoverer -/

/-- One unfolding of the upward-scan loop. -/
theorem getFeedMetaDataLoop_succ (fetchFn : String → Option (List NodeData))
    (parentOf : String → String) (u : String) (n : Nat) :
    getFeedMetaDataLoop fetchFn parentOf u (n + 1)
      = match levelResult fetchFn u with
        | some md => (some md, [u])
        | none =>
          if u == parentOf u then (none, [u])
          else
            ((getFeedMetaDataLoop fetchFn parentOf (parentOf u) n).1,
              u :: (getFeedMetaDataLoop fetchFn parentOf (parentOf u) n).2) := rfl

/-- The loop fetches at most as many directory levels as it has fuel. -/
theorem getFeedMetaDataLoop_trace_le (fetchFn : String → Option (List NodeData))
    (parentOf : String → String) :
    ∀ (n : Nat) (u : String),
      (getFeedMetaDataLoop fetchFn parentOf u n).2.length ≤ n := by
  intro n
  induction n with
  | zero => intro u; exact Nat.le_refl 0
  | succ n ih =>
    intro u
    rw [getFeedMetaDataLoop_succ]
    cases levelResult fetchFn u with
    | some md => simp
    | none =>
      by_cases hb : (u == parentOf u)
      · simp [hb]
      · simpa [hb] using Nat.succ_le_succ (ih (parentOf u))

/-- When no directory level yields anything, the loop returns nothing. -/
theorem getFeedMetaDataLoop_none (fetchFn : String → Option (List NodeData))
    (parentOf : String → String)
    (hall : ∀ v, levelResult fetchFn v = none) :
    ∀ (n : Nat) (u : String),
      (getFeedMetaDataLoop fetchFn parentOf u n).1 = none := by
  intro n
  induction n with
  | zero => intro u; rfl
  | succ n ih =>
    intro u
    rw [getFeedMetaDataLoop_succ, hall u]
    by_cases hb : (u == parentOf u) <;> simp [hb, ih (parentOf u)]

/-- C8: in metadata discovery the first directory level (walking
upward from the feed's directory `D = folderOf feedUrl`) that yields any
description or icon wins outright, with no merging across levels:
(1) whenever `D`'s page yields `(d, i)` with one of them non-empty, the
result is exactly `⟨d, i⟩` for every behavior of the fetcher at other
levels (the parent is never consulted); (2) if `D` yields nothing but
the parent level yields `(d, i)`, the result is exactly the parent's
`⟨d, i⟩`; and (3) at any single level the feed-specific
description/icon marker takes precedence over the generic one. -/
theorem C8_metadata_first_level_wins (U : UrlOps)
    (fetchFn : String → Option (List NodeData)) (parentOf : String → String)
    (feedUrl : String) (pageD pageP : List NodeData) (d i : String) :
    ((fetchFn (U.folderOf feedUrl) = some pageD ∧ levelScan pageD = (d, i)
        ∧ (d ≠ "" ∨ i ≠ "")) →
      (getFeedMetaData U fetchFn parentOf feedUrl).1 = some ⟨d, i⟩)
    ∧ ((levelResult fetchFn (U.folderOf feedUrl) = none
        ∧ parentOf (U.folderOf feedUrl) ≠ U.folderOf feedUrl
        ∧ fetchFn (parentOf (U.folderOf feedUrl)) = some pageP
        ∧ levelScan pageP = (d, i) ∧ (d ≠ "" ∨ i ≠ "")) →
      (getFeedMetaData U fetchFn parentOf feedUrl).1 = some ⟨d, i⟩)
    ∧ (∀ page : List NodeData,
        ((page.foldl trapStep ⟨"", "", "", ""⟩).feedDescription ≠ "" →
          (levelScan page).1 = (page.foldl trapStep ⟨"", "", "", ""⟩).feedDescription)
        ∧ ((page.foldl trapStep ⟨"", "", "", ""⟩).feedIcon ≠ "" →
          (levelScan page).2 = (page.foldl trapStep ⟨"", "", "", ""⟩).feedIcon)) := by
  have hlevel : ∀ (page : List NodeData) (u : String),
      fetchFn u = some page → levelScan page = (d, i) → (d ≠ "" ∨ i ≠ "") →
      levelResult fetchFn u = some ⟨d, i⟩ := by
    intro page u hf hs hne
    simp only [levelResult, hf, hs]
    have hcond : ((d != "") || (i != "")) = true := by
      rcases hne with hd | hi
      · simp [hd]
      · simp [hi]
    rw [if_pos hcond]
  refine ⟨?_, ?_, ?_⟩
  · rintro ⟨hf, hs, hne⟩
    unfold getFeedMetaData
    rw [show (1000 : Nat) = 999 + 1 from rfl, getFeedMetaDataLoop_succ,
      hlevel pageD _ hf hs hne]
  · rintro ⟨hnoneD, hpne, hf, hs, hne⟩
    unfold getFeedMetaData
    rw [show (1000 : Nat) = 999 + 1 from rfl, getFeedMetaDataLoop_succ, hnoneD]
    have hb : (U.folderOf feedUrl == parentOf (U.folderOf feedUrl)) = false := by
      simpa using fun e => hpne e.symm
    rw [if_neg (by simp [hb])]
    rw [show (999 : Nat) = 998 + 1 from rfl, getFeedMetaDataLoop_succ,
      hlevel pageP _ hf hs hne]
  · intro page
    constructor
    · intro hfd
      simp [levelScan, jsOrString, hfd]
    · intro hfi
      simp [levelScan, jsOrString, hfi]

/-- The fetcher of the C8 witness: nothing at `https://x/a/`, a
feed-description at `https://x/`. -/
def c8Fetch : String → Option (List NodeData) := fun u =>
  if u == "https://x/" then
    some [⟨"meta", [⟨"name", "feed-description"⟩, ⟨"content", "hello"⟩], []⟩]
  else none

/-- The parent-directory map of the C8 witness. -/
def c8Parent : String → String := fun _ => "https://x/"

/-- C8 witness: the feed's own directory `https://x/a/` has no
metadata, its parent `https://x/` declares a feed-description, and
discovery returns the parent's metadata. -/
theorem C8_metadata_witness :
    (getFeedMetaData urlModel c8Fetch c8Parent "https://x/a/feed.txt").1
      = some ⟨"hello", ""⟩ :=
  (C8_metadata_first_level_wins urlModel c8Fetch c8Parent "https://x/a/feed.txt"
      [] [⟨"meta", [⟨"name", "feed-description"⟩, ⟨"content", "hello"⟩], []⟩]
      "hello" "").2.1
    ⟨by decide, by decide, by decide, by decide, Or.inl (by decide)⟩

/-- C9: the upward scan of `getFeedMetaData` terminates — it fetches at
most the fixed maximum of 1000 directory levels; when the
parent-directory computation yields the current Location back (root
reached) and the current level has nothing, it stops immediately with
`null`; and whenever no level ever yields metadata, the result is
`null` (NotFound). -/
theorem C9_metadata_terminates (U : UrlOps)
    (fetchFn : String → Option (List NodeData)) (parentOf : String → String)
    (feedUrl : String) :
    (getFeedMetaData U fetchFn parentOf feedUrl).2.length ≤ 1000
    ∧ ((levelResult fetchFn (U.folderOf feedUrl) = none
        ∧ parentOf (U.folderOf feedUrl) = U.folderOf feedUrl) →
      getFeedMetaData U fetchFn parentOf feedUrl = (none, [U.folderOf feedUrl]))
    ∧ ((∀ v, levelResult fetchFn v = none) →
      (getFeedMetaData U fetchFn parentOf feedUrl).1 = none) := by
  refine ⟨getFeedMetaDataLoop_trace_le _ _ _ _, ?_,
    fun hall => getFeedMetaDataLoop_none _ _ hall _ _⟩
  rintro ⟨h1, h2⟩
  unfold getFeedMetaData
  rw [show (1000 : Nat) = 999 + 1 from rfl, getFeedMetaDataLoop_succ, h1]
  simp [h2]

/-- C9 witness: with a fetcher that finds nothing anywhere, discovery
starting at `https://x/feed.txt` returns `null`. -/
theorem C9_metadata_witness :
    (getFeedMetaData urlModel (fun _ => none) (fun u => u) "https://x/feed.txt").1
      = none :=
  (C9_metadata_terminates urlModel (fun _ => none) (fun u => u)
      "https://x/feed.txt").2.2 (fun _ => rfl)

/-! ## Claim about the Demand-Driven Provider options -/

/-- C10: for every caller-supplied options object, `getOmniviewFromFeed`
constructs the Omniview with the built-in `getPoster` and `fillBody`
(overwriting any caller-supplied ones, while the caller's other
properties survive), and — `Object.assign` mutating its target — the
caller's options object afterwards equals the object the Omniview was
constructed with. -/
theorem C10_options_merge (F : Type) (defaultGetPoster defaultFillBody : F)
    (omniviewOptions : OmniviewOptionsObj F) :
    (getOmniviewFromFeedOptions defaultGetPoster defaultFillBody
        omniviewOptions).constructedWith.getPoster = some defaultGetPoster
    ∧ (getOmniviewFromFeedOptions defaultGetPoster defaultFillBody
        omniviewOptions).constructedWith.fillBody = some defaultFillBody
    ∧ (getOmniviewFromFeedOptions defaultGetPoster defaultFillBody
        omniviewOptions).constructedWith.anchorIndex = omniviewOptions.anchorIndex
    ∧ (getOmniviewFromFeedOptions defaultGetPoster defaultFillBody
        omniviewOptions).constructedWith.getBodyContainer
        = omniviewOptions.getBodyContainer
    ∧ (getOmniviewFromFeedOptions defaultGetPoster defaultFillBody
        omniviewOptions).callerObjectAfter
        = (getOmniviewFromFeedOptions defaultGetPoster defaultFillBody
            omniviewOptions).constructedWith :=
  ⟨rfl, rfl, rfl, rfl, rfl⟩

end Syndi
